import Mathlib

/-!
Verification development for the BATTLE-TANKS arena simulation
(src/main.py).  The Python source is shallowly embedded: continuous
coordinates become exact rationals, pygame.Rect becomes an integer
rectangle (pygame truncates float coordinates toward zero when a Rect is
built), Python dicts become association lists, and the degree-based
trigonometric functions math.cos/math.sin are passed in as explicit
function parameters, so every theorem quantifying over them covers the
real trigonometric functions as a special case.
-/

set_option allowUnsafeReducibility true

attribute [semireducible] Rat.add Rat.mul Rat.sub Rat.inv Rat.ofScientific

namespace BattleTanks

/-! ## Module constants (src/main.py lines 10-37) -/

def SCREEN_WIDTH : ℤ := 1920

def SCREEN_HEIGHT : ℤ := 1020

def TANK_SIZE : ℤ := 30

def TANK_SPEED : ℤ := 5

def ROTATION_SPEED : ℤ := 2

def BULLET_SPEED : ℤ := 10

def BULLET_SIZE : ℤ := 6

def TILE_WIDTH : ℤ := 70

def TILE_HEIGHT : ℤ := 45

def BORDER_THICKNESS : ℤ := 0

def MATCH_SECONDS : ℕ := 90

/-! ## pygame geometry -/

/-- Truncation toward zero: the conversion Python int() and pygame.Rect
apply to float coordinates. -/
def itrunc (q : ℚ) : ℤ := if 0 ≤ q then ⌊q⌋ else ⌈q⌉

/-- pygame.Rect stores integer x, y, w, h. -/
structure Rect where
  x : ℤ
  y : ℤ
  w : ℤ
  h : ℤ
deriving DecidableEq

/-- Build a pygame.Rect from rational coordinates, truncating toward zero
as pygame does. -/
def mkRectQ (x y w h : ℚ) : Rect := ⟨itrunc x, itrunc y, itrunc w, itrunc h⟩

/-- pygame Rect.colliderect: strict overlap on both axes. -/
def colliderect (a b : Rect) : Bool :=
  decide (a.x < b.x + b.w ∧ a.x + a.w > b.x ∧ a.y < b.y + b.h ∧ a.y + a.h > b.y)

/-! ## Tile (src/main.py lines 41-71) -/

/-- A tile-sized obstacle.  Its rect is at
(grid_x * TILE_WIDTH, grid_y * TILE_HEIGHT) with size
TILE_WIDTH x TILE_HEIGHT (src/main.py line 55). -/
structure Tile where
  grid_x : ℤ
  grid_y : ℤ
  collidable : Bool := true
deriving DecidableEq

def Tile.rect (t : Tile) : Rect :=
  ⟨t.grid_x * TILE_WIDTH, t.grid_y * TILE_HEIGHT, TILE_WIDTH, TILE_HEIGHT⟩

/-- Tile.collides (src/main.py lines 70-71). -/
def Tile.collides (t : Tile) : Bool := t.collidable

/-! ## Bullet (src/main.py lines 178-247) -/

/-- Bullet state (src/main.py lines 179-188).  The owner is the index of
the owning tank in the two-tank session; id models Python object
identity so that mutation of a shared bullet object can be expressed
functionally. -/
structure Bullet where
  x : ℚ
  y : ℚ
  angle : ℚ
  owner : Fin 2
  speed : ℚ := (BULLET_SPEED : ℚ)
  size : ℚ := (BULLET_SIZE : ℚ)
  bounces : ℕ := 0
  max_bounces : ℕ := 4
  active : Bool := true
  id : ℕ := 0
deriving DecidableEq

/-- The bounding box pygame.Rect(x - size/2, y - size/2, size, size)
(src/main.py line 200 and lines 770-771). -/
def bulletRectQ (b : Bullet) : Rect :=
  mkRectQ (b.x - b.size / 2) (b.y - b.size / 2) b.size b.size

/-- The obstacle-collision loop of Bullet.update (src/main.py lines
218-243).  bullet_rect is the box computed once before the loop.  The
returned flag is true when the Python loop executed a return statement
(max bounces exceeded), which skips the final screen-bounds check. -/
def tileBounce (cosd sind : ℚ → ℚ) (bullet_rect : Rect) :
    Bullet → List Tile → Bullet × Bool
  | b, [] => (b, false)
  | b, tile :: rest =>
    if !tile.collides then tileBounce cosd sind bullet_rect b rest
    else if colliderect bullet_rect tile.rect then
      let b1 := { b with bounces := b.bounces + 1 }
      if b1.bounces > b1.max_bounces then ({ b1 with active := false }, true)
      else
        let overlap_left := bullet_rect.x + bullet_rect.w - tile.rect.x
        let overlap_right := tile.rect.x + tile.rect.w - bullet_rect.x
        let overlap_top := bullet_rect.y + bullet_rect.h - tile.rect.y
        let overlap_bottom := tile.rect.y + tile.rect.h - bullet_rect.y
        let min_overlap := min (min (min overlap_left overlap_right) overlap_top) overlap_bottom
        let b2 :=
          if min_overlap = overlap_top ∨ min_overlap = overlap_bottom then
            { b1 with angle := -b1.angle }
          else
            { b1 with angle := 180 - b1.angle }
        let b3 := { b2 with x := b2.x + cosd b2.angle * b2.speed * 2,
                            y := b2.y - sind b2.angle * b2.speed * 2 }
        (b3, false)
    else tileBounce cosd sind bullet_rect b rest

/-- The x-axis border test of Bullet.update (src/main.py lines 203 and
211): the bullet box crosses the left or right world edge. -/
def borderBreachX (bm : Bullet) : Bool :=
  decide (bm.x - bm.size / 2 < (BORDER_THICKNESS : ℚ) ∨
          bm.x + bm.size / 2 > (SCREEN_WIDTH : ℚ) - (BORDER_THICKNESS : ℚ))

/-- The y-axis border test of Bullet.update (src/main.py line 204): the
bullet box crosses the top or bottom world edge. -/
def borderBreachY (bm : Bullet) : Bool :=
  decide (bm.y - bm.size / 2 < (BORDER_THICKNESS : ℚ) ∨
          bm.y + bm.size / 2 > (SCREEN_HEIGHT : ℚ) - (BORDER_THICKNESS : ℚ))

/-- The movement step of Bullet.update (src/main.py lines 195-196). -/
def Bullet.moved (b : Bullet) (cosd sind : ℚ → ℚ) : Bullet :=
  { b with x := b.x + cosd b.angle * b.speed,
           y := b.y - sind b.angle * b.speed }

/-- The collision-handling part of Bullet.update, applied to the already
moved bullet bm (src/main.py lines 198-247). -/
def Bullet.updateBody (bm : Bullet) (cosd sind : ℚ → ℚ) (tiles : List Tile) : Bullet :=
  let bullet_rect := bulletRectQ bm
  if borderBreachX bm || borderBreachY bm then
    let b1 := { bm with bounces := bm.bounces + 1 }
    if b1.bounces > b1.max_bounces then { b1 with active := false }
    else if borderBreachX bm then { b1 with angle := 180 - b1.angle }
    else { b1 with angle := -b1.angle }
  else
    let p := tileBounce cosd sind bullet_rect bm tiles
    if p.2 then p.1
    else if p.1.x < 0 ∨ p.1.x > (SCREEN_WIDTH : ℚ) ∨ p.1.y < 0 ∨ p.1.y > (SCREEN_HEIGHT : ℚ) then
      { p.1 with active := false }
    else p.1

/-- Bullet.update (src/main.py lines 190-247).  cosd and sind stand for
the degree-based cosine and sine; theorems below hold for every choice
of these functions, hence for the real ones. -/
def Bullet.update (b : Bullet) (cosd sind : ℚ → ℚ) (tiles : List Tile) : Bullet :=
  if !b.active then b
  else (b.moved cosd sind).updateBody cosd sind tiles

/-- Iterated ticks of one projectile against a fixed tile list. -/
def iterUpdate (cosd sind : ℚ → ℚ) (tiles : List Tile) : ℕ → Bullet → Bullet
  | 0, b => b
  | n + 1, b => iterUpdate cosd sind tiles n (b.update cosd sind tiles)

/-- The bounce-count invariant actually maintained by Bullet.update: the
count can reach max_bounces + 1 (the increment happens before the limit
test, src/main.py lines 205-207 and 222-224), and any state beyond the
maximum is inactive. -/
def BulletInv (b : Bullet) : Prop :=
  b.bounces ≤ b.max_bounces + 1 ∧ (b.max_bounces < b.bounces → b.active = false)

/-! ## Tank (src/main.py lines 254-530) -/

/-- AI behavior states (src/main.py lines 292, 372-382). -/
inductive AIState where
  | patrol
  | pursue
  | attack
deriving DecidableEq

/-- Tank state (src/main.py lines 255-296).  Fields not relevant to the
simulation core (textures, sounds, turret art, cooldown bookkeeping) are
omitted.  As in the source, spawn_point defaults to the initial
position. -/
structure Tank where
  x : ℚ
  y : ℚ
  angle : ℚ := 0
  size : ℚ := (TANK_SIZE : ℚ)
  speed : ℚ := (TANK_SPEED : ℚ)
  bullets : List Bullet := []
  alive : Bool := true
  is_ai : Bool := false
  kills : ℕ := 0
  suicides : ℕ := 0
  deaths : ℕ := 0
  spawn_point : ℚ × ℚ := (x, y)
  ai_state : AIState := AIState.patrol
deriving DecidableEq

/-- Tank.get_rect (src/main.py lines 298-299). -/
def Tank.get_rect (t : Tank) : Rect :=
  mkRectQ (t.x - t.size / 2) (t.y - t.size / 2) t.size t.size

/-- Tank.move (src/main.py lines 301-340).  The two border if-statements
both just clear can_move, and the obstacle loop clears it on the first
collidable hit, so the move is applied iff no border edge is crossed and
no collidable tile rectangle intersects the candidate footprint.  Sound
effects are not modelled. -/
def Tank.move (t : Tank) (dx dy : ℚ) (tiles : List Tile) : Tank :=
  let new_x := t.x + dx
  let new_y := t.y + dy
  -- border_thickness = max(BORDER_THICKNESS, max(TILE_WIDTH, TILE_HEIGHT)) (line 306)
  let border_thickness : ℚ := ((max BORDER_THICKNESS (max TILE_WIDTH TILE_HEIGHT)) : ℚ)
  if new_x - t.size / 2 < border_thickness ∨
     new_x + t.size / 2 > (SCREEN_WIDTH : ℚ) - border_thickness ∨
     new_y - t.size / 2 < border_thickness ∨
     new_y + t.size / 2 > (SCREEN_HEIGHT : ℚ) - border_thickness then t
  else
    let test_rect := mkRectQ (new_x - t.size / 2) (new_y - t.size / 2) t.size t.size
    if tiles.any (fun tile => tile.collides && colliderect test_rect tile.rect) then t
    else { t with x := new_x, y := new_y }

/-- Tank.respawn (src/main.py lines 360-367): alive, bullets cleared,
position reset to the spawn point. -/
def Tank.respawn (t : Tank) : Tank :=
  { t with alive := true, bullets := [], x := t.spawn_point.1, y := t.spawn_point.2 }

/-- Tank.has_line_of_sight (src/main.py lines 480-495): sample 20 evenly
spaced points on the segment between the tanks; sight is blocked when a
10x10 probe rectangle at any sample intersects a collidable tile. -/
def Tank.has_line_of_sight (t : Tank) (target : Tank) (tiles : List Tile) : Bool :=
  let dx := (target.x - t.x) / 20
  let dy := (target.y - t.y) / 20
  (List.range 20).all fun i =>
    let check_rect := mkRectQ (t.x + dx * (i : ℚ) - 5) (t.y + dy * (i : ℚ) - 5) 10 10
    !(tiles.any fun wall => wall.collides && colliderect check_rect wall.rect)

/-- The state-selection part of Tank.update_ai (src/main.py lines
369-382), for a present (non-None) target; a None target would raise
AttributeError at line 375 before any state is used.  Line 372 assigns
patrol when the target is dead, but lines 377-382 then reassign ai_state
unconditionally, so that assignment is dead — the embedding keeps it as
the unused binding _s1.  The source compares sqrt(d) with 200 and 400;
for d ≥ 0 this is equivalent to comparing d with 200² and 400², which is
how the comparison is encoded here (exactly, without square roots). -/
def Tank.update_ai_state (t : Tank) (target : Tank) (tiles : List Tile) : AIState :=
  let _s1 := if !target.alive then AIState.patrol else t.ai_state
  let dist_sq := (t.x - target.x) * (t.x - target.x) + (t.y - target.y) * (t.y - target.y)
  if dist_sq < 200 * 200 ∧ t.has_line_of_sight target tiles = true then AIState.attack
  else if dist_sq < 400 * 400 then AIState.pursue
  else AIState.patrol

/-! ## Concrete fixtures used in witnesses and counterexamples -/

/-- Degree-cosine on the angles 0 and 180, the only angles reached in the
bullet_c2 trace; agrees there with the mathematical cos in degrees. -/
def cos_deg_sample : ℚ → ℚ := fun a => if a = 0 then 1 else if a = 180 then -1 else 0

/-- Degree-sine on the angles 0 and 180 (both exactly zero). -/
def sin_deg_sample : ℚ → ℚ := fun _ => 0

/-- A bullet fired leftwards (angle 180) from a tank at (85, 247): spawn
is 30 px ahead of the barrel, hence x = 55. -/
def bullet_c2 : Bullet := { x := 55, y := 247, angle := 180, owner := 0 }

/-- An obstacle tile in grid cell (1, 5): world rect [70,140] x [225,270]. -/
def tile_c2 : Tile := { grid_x := 1, grid_y := 5 }

/-- A bullet one step short of the right border, flying right. -/
def bullet_c7 : Bullet := { x := 1915, y := 500, angle := 0, owner := 0 }

/-- An inactive bullet. -/
def bullet_c10 : Bullet := { x := 300, y := 300, angle := 45, owner := 1, bounces := 2, active := false }

/-- An AI-controlled tank at (100, 100). -/
def tank_ai : Tank := { x := 100, y := 100, is_ai := true }

/-- A dead tank 150 world units away from tank_ai. -/
def tank_dead : Tank := { x := 250, y := 100, alive := false }

/-! ## Occupancy grid (src/main.py lines 676-704) -/

def grid_w : ℤ := max 1 (SCREEN_WIDTH / TILE_WIDTH)

def grid_h : ℤ := max 1 (SCREEN_HEIGHT / TILE_HEIGHT)

/-- border_cols = max(1, ceil(BORDER_THICKNESS / TILE_WIDTH))
(src/main.py line 683); the division is Python float division. -/
def border_cols : ℤ := max 1 ⌈(BORDER_THICKNESS : ℚ) / (TILE_WIDTH : ℚ)⌉

def border_rows : ℤ := max 1 ⌈(BORDER_THICKNESS : ℚ) / (TILE_HEIGHT : ℚ)⌉

/-- One assignment grid[a][b] = True, on the grid-as-function
representation (grid[x][y] indexes column x, row y). -/
def set2 (g : ℕ → ℕ → Bool) (a b : ℕ) : ℕ → ℕ → Bool :=
  fun x y => if x = a ∧ y = b then true else g x y

/-- Perform the listed single-cell writes in order. -/
def setCells (g : ℕ → ℕ → Bool) (ps : List (ℕ × ℕ)) : ℕ → ℕ → Bool :=
  ps.foldl (fun g p => set2 g p.1 p.2) g

/-- The guarded writes of the two border-marking loops of
Game.create_grid_map (src/main.py lines 685-696), in loop order: for
each column the top and bottom border rows, then for each row the left
and right border columns.  Loop indices are nonnegative, so the Python
guards 0 <= by and 0 <= bx are left implicit in the ℕ type. -/
def borderCells : List (ℕ × ℕ) :=
  ((List.range grid_w.toNat).flatMap fun x =>
    (List.range border_rows.toNat).flatMap fun by2 =>
      (if (by2 : ℤ) < grid_h then [(x, by2)] else [])
      ++ (if 0 ≤ grid_h - 1 - (by2 : ℤ) ∧ grid_h - 1 - (by2 : ℤ) < grid_h
          then [(x, (grid_h - 1 - (by2 : ℤ)).toNat)] else []))
  ++ ((List.range grid_h.toNat).flatMap fun y =>
    (List.range border_cols.toNat).flatMap fun bx =>
      (if (bx : ℤ) < grid_w then [(bx, y)] else [])
      ++ (if 0 ≤ grid_w - 1 - (bx : ℤ) ∧ grid_w - 1 - (bx : ℤ) < grid_w
          then [((grid_w - 1 - (bx : ℤ)).toNat, y)] else []))

/-- The guarded writes of the obstacle-marking loop of
Game.create_grid_map (src/main.py lines 699-702). -/
def tileCells (tiles : List Tile) : List (ℕ × ℕ) :=
  tiles.flatMap fun t =>
    if 0 ≤ t.grid_x ∧ t.grid_x < grid_w ∧ 0 ≤ t.grid_y ∧ t.grid_y < grid_h ∧ t.collides = true
    then [(t.grid_x.toNat, t.grid_y.toNat)] else []

/-- Game.create_grid_map (src/main.py lines 676-704): start from an
all-False grid_w x grid_h grid, mark the border cells, then mark the
collidable obstacle cells.  Each imperative loop is represented by the
ordered list of guarded single-cell writes it performs. -/
def create_grid_map (tiles : List Tile) : ℕ → ℕ → Bool :=
  setCells (setCells (fun _ _ => false) borderCells) (tileCells tiles)

/-! ## Two-tank session state and collision resolution
(src/main.py lines 759-804) -/

/-- The entity state of a running two-tank session (self.tanks has
exactly two tanks, src/main.py lines 744-751). -/
structure GState where
  tank0 : Tank
  tank1 : Tank
deriving DecidableEq

def getTank (s : GState) (i : Fin 2) : Tank :=
  if i = 0 then s.tank0 else s.tank1

def updateTank (s : GState) (i : Fin 2) (f : Tank → Tank) : GState :=
  if i = 0 then { s with tank0 := f s.tank0 } else { s with tank1 := f s.tank1 }

/-- bullet.active = False (src/main.py line 774) is a write through a
shared object reference: every list entry carrying the same id is
deactivated, wherever it sits. -/
def deactivate_bullet (bid : ℕ) (s : GState) : GState :=
  { tank0 := { s.tank0 with bullets := s.tank0.bullets.map fun b =>
      if b.id = bid then { b with active := false } else b },
    tank1 := { s.tank1 with bullets := s.tank1.bullets.map fun b =>
      if b.id = bid then { b with active := false } else b } }

/-- The body of the innermost collision loop for one (victim, bullet)
pair (src/main.py lines 769-804): when the active bullet box intersects
the victim rect, deactivate the bullet, score a suicide plus death for a
self-hit or a kill for the owner plus a death for the victim, and
respawn the victim immediately.  Sound effects are not modelled. -/
def Game.handle_bullet (s : GState) (victim : Fin 2) (b : Bullet) : GState :=
  if b.active = true ∧ colliderect (Tank.get_rect (getTank s victim)) (bulletRectQ b) = true then
    let s1 := deactivate_bullet b.id s
    let s2 :=
      if b.owner = victim then
        updateTank s1 victim fun t => { t with suicides := t.suicides + 1, deaths := t.deaths + 1 }
      else
        updateTank (updateTank s1 b.owner fun t => { t with kills := t.kills + 1 })
          victim fun t => { t with deaths := t.deaths + 1 }
    updateTank s2 victim Tank.respawn
  else s

/-- One (victim, other) pair of the nested loops (src/main.py lines
764-772): skip a dead other tank, otherwise fold the handler over a
snapshot of the other tank bullet list.  Python iterates over a copy of
the list; clearing a list mid-iteration does not affect the copy, and no
iteration mutates a later snapshot entry, so folding over the snapshot
values is faithful. -/
def Game.check_pair (s : GState) (victim other : Fin 2) : GState :=
  if (getTank s other).alive = false then s
  else (getTank s other).bullets.foldl (fun acc b => Game.handle_bullet acc victim b) s

/-- One iteration of the outer victim loop (src/main.py lines 760-763). -/
def Game.check_victim (s : GState) (victim : Fin 2) : GState :=
  if (getTank s victim).alive = false then s
  else Game.check_pair (Game.check_pair s victim 0) victim 1

/-- Game.check_collisions (src/main.py lines 759-804) for the two-tank
session, iterating victims and others in list order. -/
def Game.check_collisions (s : GState) : GState :=
  Game.check_victim (Game.check_victim s 0) 1

/-- A session state in which tank1 has one bullet overlapping tank0. -/
def gstate_c4 : GState :=
  { tank0 := { x := 500, y := 500 },
    tank1 := { x := 900, y := 500,
               bullets := [{ x := 500, y := 500, angle := 0, owner := 1, id := 7 }] } }

/-- The bullet of gstate_c4. -/
def bullet_c4 : Bullet := { x := 500, y := 500, angle := 0, owner := 1, id := 7 }

/-! ## Winner determination (src/main.py lines 1046-1065) -/

/-- The top-scorer selection loop of Game.draw_game_over (src/main.py
lines 1047-1056), over the kill counts in tank-list order: state
(top, top_kills, tie) starting from (None, -1, False); a strictly larger
count takes the lead and clears the tie flag, an equal count sets it. -/
def select_top (ks : List ℕ) : Option ℕ × ℤ × Bool :=
  ks.enum.foldl
    (fun acc p =>
      if (p.2 : ℤ) > acc.2.1 then (some p.1, (p.2 : ℤ), false)
      else if (p.2 : ℤ) = acc.2.1 then (acc.1, acc.2.1, true)
      else acc)
    (none, -1, false)

/-- The winner decision of Game.draw_game_over (src/main.py lines
1058-1065): no winner when nothing was selected, the top kill count is
≤ 0, or it is tied; otherwise the index of the top tank. -/
def draw_game_over_winner (ks : List ℕ) : Option ℕ :=
  let r := select_top ks
  if r.1 = none ∨ r.2.1 ≤ 0 ∨ r.2.2 = true then none else r.1

/-! ## Match session loop (src/main.py lines 753-755 and 1126-1167) -/

/-- The values of Game.state relevant to the session lifecycle. -/
inductive Phase where
  | menu
  | playing
  | game_over
deriving DecidableEq

/-- Session-level state of Game.run: the phase, the two tanks (with
their projectiles), and the clock fields written by start_game. -/
structure Session where
  state : Phase
  gstate : GState
  match_start : ℕ
  match_end : ℕ
deriving DecidableEq

/-- The match-timer initialisation of Game.start_game (src/main.py lines
753-755): match_end = match_start + MATCH_SECONDS * 1000 (pygame ticks
are milliseconds). -/
def start_match_timer (now : ℕ) : ℕ × ℕ := (now, now + MATCH_SECONDS * 1000)

/-- One iteration of the body of Game.run (src/main.py lines 1126-1167)
with no input events, at clock reading now.  Only the playing branch
touches the entities — tank updates, shooting, bullet updates and
check_collisions, abstracted as the entity transformer advance, so the
theorems below hold for the full per-tick pipeline — and the phase
switches to game_over exactly when now ≥ match_end (line 1154).  The
menu and game_over branches only draw and mutate nothing. -/
def Game.run_iter (advance : GState → GState) (now : ℕ) (s : Session) : Session :=
  match s.state with
  | Phase.playing =>
    let g := advance s.gstate
    if now ≥ s.match_end then { s with gstate := g, state := Phase.game_over }
    else { s with gstate := g, state := Phase.playing }
  | _ => s

/-- A playing session whose match window is (1000, 91000) ms. -/
def session_play : Session :=
  { state := Phase.playing, gstate := gstate_c4, match_start := 1000, match_end := 91000 }

/-- The same session after the match has ended. -/
def session_over : Session :=
  { state := Phase.game_over, gstate := gstate_c4, match_start := 1000, match_end := 91000 }

/-! ## A* pathfinder (src/main.py lines 419-467) -/

/-- A grid cell (col, row). -/
abbrev Cell := ℤ × ℤ

/-- Python dict lookup on an association list with distinct keys. -/
def dictGet {β : Type} : List (Cell × β) → Cell → Option β
  | [], _ => none
  | (k0, v0) :: rest, k => if k0 = k then some v0 else dictGet rest k

/-- Python dict assignment: replace the binding if the key is present,
else append the new binding. -/
def dictSet {β : Type} : List (Cell × β) → Cell → β → List (Cell × β)
  | [], k, v => [(k, v)]
  | (k0, v0) :: rest, k, v =>
    if k0 = k then (k, v) :: rest else (k0, v0) :: dictSet rest k v

/-- A frontier entry (priority, cell); Python orders these tuples
lexicographically. -/
abbrev Entry := ℚ × Cell

def entLe (a b : Entry) : Bool :=
  decide (a.1 < b.1 ∨ (a.1 = b.1 ∧ (a.2.1 < b.2.1 ∨ (a.2.1 = b.2.1 ∧ a.2.2 ≤ b.2.2))))

/-- heapq.heappop: return the least entry — the binary heap keeps the
minimum at the root — and the remaining entries.  Frontier entries are
pairwise distinct values (a cell is re-pushed only with a strictly
smaller priority), so the minimum is unique and the sequence of popped
values is fully determined; keeping the remaining entries in list order
instead of heap order is observationally equivalent because only minima
are ever extracted. -/
def popMin : List Entry → Option (Entry × List Entry)
  | [] => none
  | e :: rest =>
    match popMin rest with
    | none => some (e, rest)
    | some (m, r) => if entLe e m then some (e, rest) else some (m, e :: r)

/-- The mutable state of the astar_pathfind search loop (src/main.py
lines 427-430). -/
structure AState where
  frontier : List Entry
  came_from : List (Cell × Option Cell)
  cost_so_far : List (Cell × ℚ)
deriving DecidableEq

/-- The eight neighbour offsets, in source order (src/main.py line 438). -/
def astar_dirs : List (ℤ × ℤ) :=
  [(0, 1), (1, 0), (0, -1), (-1, 0), (1, 1), (-1, -1), (1, -1), (-1, 1)]

/-- grid_map[cell[0]][cell[1]]; callers bound-check first. -/
def gridAt (grid : ℕ → ℕ → Bool) (c : Cell) : Bool := grid c.1.toNat c.2.toNat

/-- Processing of one neighbour offset d of current (src/main.py lines
439-453).  cost_so_far[current] is passed in as ccost: the source reads
it afresh for each neighbour, but neighbour writes only ever target
current + d with d ≠ (0,0), so the value is loop-invariant.  The source
float 1.4 is the exact 7/5 here. -/
def astarStep (grid : ℕ → ℕ → Bool) (goal current : Cell) (ccost : ℚ)
    (st : AState) (d : ℤ × ℤ) : AState :=
  let next : Cell := (current.1 + d.1, current.2 + d.2)
  if 0 ≤ next.1 ∧ next.1 < grid_w ∧ 0 ≤ next.2 ∧ next.2 < grid_h then
    if gridAt grid next then st
    else
      let new_cost := ccost + (if |d.1| + |d.2| = 2 then (7 : ℚ) / 5 else 1)
      let improve :=
        match dictGet st.cost_so_far next with
        | none => true
        | some c => decide (new_cost < c)
      if improve then
        { frontier := st.frontier
            ++ [(new_cost + ((|next.1 - goal.1| : ℤ) : ℚ) + ((|next.2 - goal.2| : ℤ) : ℚ), next)],
          came_from := dictSet st.came_from next (some current),
          cost_so_far := dictSet st.cost_so_far next new_cost }
      else st
  else st

/-- The neighbour loop of one search iteration (src/main.py lines
438-453). -/
def astarExpand (grid : ℕ → ℕ → Bool) (goal current : Cell) (ccost : ℚ)
    (st : AState) : AState :=
  astar_dirs.foldl (astarStep grid goal current ccost) st

/-- Fuel for the search loop.  Every iteration pops one entry; pushes
happen only on strict improvements of a key cost, every key cost is a
nonnegative multiple of 1/5 below 1.4 x 200 (parent links decrease cost,
and the loop admits at most 200 keys), so a key is improved at most 1400
times, pushes stay below 1 + 200 x 1400 < 2^19, and the fuel is never
exhausted. -/
def ASTAR_FUEL : ℕ := 524288

/-- The while loop of astar_pathfind (src/main.py lines 432-453).
Exhausted fuel behaves as loop exit (unreachable, see ASTAR_FUEL); the
cost_so_far lookup of the popped cell is the fallible dict access that
would raise KeyError in Python. -/
def astarLoop (grid : ℕ → ℕ → Bool) (goal : Cell) : ℕ → AState → Except String AState
  | 0, st => Except.ok st
  | fuel + 1, st =>
    if st.frontier ≠ [] ∧ st.came_from.length < 200 then
      match popMin st.frontier with
      | none => Except.error "empty frontier"
      | some (m, rest) =>
        if m.2 = goal then Except.ok { st with frontier := rest }
        else
          match dictGet st.cost_so_far m.2 with
          | none => Except.error "KeyError cost_so_far"
          | some ccost =>
            astarLoop grid goal fuel (astarExpand grid goal m.2 ccost { st with frontier := rest })
    else Except.ok st

/-- Path reconstruction (src/main.py lines 455-467): walk the
predecessor links from goal to start, prepending the world-space centre
of each visited cell (so the accumulated list is already in
start-to-goal order, as after the source reverse), and keep the first 10
waypoints.  Parent links strictly decrease the stored cost, so the walk
visits distinct keys and came_from.length + 1 steps always suffice; a
missing key or a None parent of a non-start cell is the KeyError /
TypeError the source would raise there. -/
def reconstructPath (came_from : List (Cell × Option Cell)) (start : Cell) :
    ℕ → Cell → List (ℤ × ℤ) → Except String (List (ℤ × ℤ))
  | 0, _, _ => Except.error "reconstruction exceeded bound"
  | fuel + 1, current, acc =>
    if current = start then Except.ok (acc.take 10)
    else
      match dictGet came_from current with
      | none => Except.error "KeyError came_from"
      | some none => Except.error "TypeError None cell"
      | some (some p) =>
        reconstructPath came_from start fuel p
          ((current.1 * TILE_WIDTH + TILE_WIDTH / 2,
            current.2 * TILE_HEIGHT + TILE_HEIGHT / 2) :: acc)

/-- int(x // TILE_WIDTH) on floats is the floor of the exact quotient
(src/main.py lines 421-422). -/
def world_to_cell (x y : ℚ) : Cell :=
  (⌊x / (TILE_WIDTH : ℚ)⌋, ⌊y / (TILE_HEIGHT : ℚ)⌋)

/-- The initial search state (src/main.py lines 427-430). -/
def astar_init (start : Cell) : AState :=
  { frontier := [((0 : ℚ), start)],
    came_from := [(start, none)],
    cost_so_far := [(start, (0 : ℚ))] }

/-- The search loop run to completion from the initial state. -/
def astar_run (grid : ℕ → ℕ → Bool) (start goal : Cell) : Except String AState :=
  astarLoop grid goal ASTAR_FUEL (astar_init start)

/-- Tank.astar_pathfind (src/main.py lines 419-467). -/
def astar_pathfind (grid : ℕ → ℕ → Bool) (sx sy tx ty : ℚ) : Except String (List (ℤ × ℤ)) :=
  let start := world_to_cell sx sy
  let goal := world_to_cell tx ty
  if start = goal then Except.ok []
  else
    match astar_run grid start goal with
    | Except.error e => Except.error e
    | Except.ok st =>
      match dictGet st.came_from goal with
      | none => Except.ok []
      | some _ => reconstructPath st.came_from start (st.came_from.length + 1) goal []

/-- The count of stored costs strictly below c, the termination measure
of the reconstruction walk. -/
def countBelow (cost : List (Cell × ℚ)) (c : ℚ) : ℕ :=
  cost.countP fun e => decide (e.2 < c)

/-- The search-state invariant maintained by the loop: frontier cells
have stored costs, came_from and cost_so_far share their key set and
size, only start maps to None, parent links cost at least one unit less,
and every recorded cell is start or a free in-bounds cell. -/
def AInv (grid : ℕ → ℕ → Bool) (start : Cell) (st : AState) : Prop :=
  (∀ e ∈ st.frontier, (dictGet st.cost_so_far e.2).isSome = true)
  ∧ (∀ k : Cell, (dictGet st.came_from k).isSome = true ↔ (dictGet st.cost_so_far k).isSome = true)
  ∧ st.came_from.length = st.cost_so_far.length
  ∧ (∀ k o, dictGet st.came_from k = some o → o = none → k = start)
  ∧ (∀ k p, dictGet st.came_from k = some (some p) →
      ∃ ck cp, dictGet st.cost_so_far k = some ck ∧ dictGet st.cost_so_far p = some cp ∧ cp + 1 ≤ ck)
  ∧ (∀ k : Cell, (dictGet st.came_from k).isSome = true → k = start ∨ gridAt grid k = false)

/-! ## Helper lemmas about Bullet.update -/

theorem tileBounce_spec (cosd sind : ℚ → ℚ) (rect : Rect) :
    ∀ (tiles : List Tile) (b : Bullet),
      (tileBounce cosd sind rect b tiles).1.max_bounces = b.max_bounces
    ∧ b.bounces ≤ (tileBounce cosd sind rect b tiles).1.bounces
    ∧ (tileBounce cosd sind rect b tiles).1.bounces ≤ b.bounces + 1
    ∧ ((tileBounce cosd sind rect b tiles).2 = true →
         (tileBounce cosd sind rect b tiles).1.active = false)
    ∧ ((tileBounce cosd sind rect b tiles).2 = false →
         (tileBounce cosd sind rect b tiles).1.active = b.active
       ∧ ((tileBounce cosd sind rect b tiles).1.bounces ≤ b.max_bounces
          ∨ (tileBounce cosd sind rect b tiles).1.bounces = b.bounces)) := by
  intro tiles
  induction tiles with
  | nil => intro b; simp [tileBounce]
  | cons tile rest ih =>
    intro b
    by_cases h1 : tile.collides
    · by_cases h2 : colliderect rect tile.rect
      · by_cases h3 : b.bounces + 1 > b.max_bounces
        · simp [tileBounce, h1, h2, h3]
        · simp only [tileBounce, h1, h2, h3, Bool.not_true, Bool.false_eq_true,
            if_false, if_true, ite_false, ite_true]
          split
          · exact ⟨rfl, by simp, by simp, by simp, fun _ => ⟨rfl, by dsimp only; omega⟩⟩
          · exact ⟨rfl, by simp, by simp, by simp, fun _ => ⟨rfl, by dsimp only; omega⟩⟩
      · simpa [tileBounce, h1, h2] using ih b
    · simpa [tileBounce, h1] using ih b

theorem updateBody_max (cosd sind : ℚ → ℚ) (tiles : List Tile) (bm : Bullet) :
    (bm.updateBody cosd sind tiles).max_bounces = bm.max_bounces := by
  obtain ⟨hmax, hge, hle, hrt, hrf⟩ := tileBounce_spec cosd sind (bulletRectQ bm) tiles bm
  unfold Bullet.updateBody
  dsimp only
  split_ifs <;> first | rfl | simp_all

theorem updateBody_mono (cosd sind : ℚ → ℚ) (tiles : List Tile) (bm : Bullet) :
    bm.bounces ≤ (bm.updateBody cosd sind tiles).bounces := by
  obtain ⟨hmax, hge, hle, hrt, hrf⟩ := tileBounce_spec cosd sind (bulletRectQ bm) tiles bm
  unfold Bullet.updateBody
  dsimp only
  split_ifs <;> first | (dsimp only; omega) | simp_all

theorem updateBody_inv (cosd sind : ℚ → ℚ) (tiles : List Tile) (bm : Bullet)
    (h : bm.bounces ≤ bm.max_bounces) : BulletInv (bm.updateBody cosd sind tiles) := by
  obtain ⟨hmax, hge, hle, hrt, hrf⟩ := tileBounce_spec cosd sind (bulletRectQ bm) tiles bm
  unfold Bullet.updateBody BulletInv
  dsimp only
  split_ifs with h1 h2 h3 h4 h5
  · exact ⟨by dsimp only; omega, fun _ => rfl⟩
  · exact ⟨by dsimp only; omega, by dsimp only; omega⟩
  · exact ⟨by dsimp only; omega, by dsimp only; omega⟩
  · exact ⟨by omega, fun _ => hrt h4⟩
  · exact ⟨by dsimp only; omega, fun _ => rfl⟩
  · refine ⟨by omega, fun hgt => ?_⟩
    rcases (hrf (by simpa using h4)).2 with hc | hc <;> omega

theorem bullet_update_inactive (cosd sind : ℚ → ℚ) (tiles : List Tile) (b : Bullet)
    (h : b.active = false) : b.update cosd sind tiles = b := by
  simp [Bullet.update, h]

theorem bullet_update_max (cosd sind : ℚ → ℚ) (tiles : List Tile) (b : Bullet) :
    (b.update cosd sind tiles).max_bounces = b.max_bounces := by
  unfold Bullet.update
  split
  · rfl
  · exact updateBody_max cosd sind tiles _

theorem bullet_update_mono (cosd sind : ℚ → ℚ) (tiles : List Tile) (b : Bullet) :
    b.bounces ≤ (b.update cosd sind tiles).bounces := by
  unfold Bullet.update
  split
  · exact le_refl _
  · exact updateBody_mono cosd sind tiles (b.moved cosd sind)

theorem bullet_update_inv (cosd sind : ℚ → ℚ) (tiles : List Tile) (b : Bullet)
    (h : BulletInv b) : BulletInv (b.update cosd sind tiles) := by
  by_cases ha : b.active = true
  · have hle : b.bounces ≤ b.max_bounces := by
      rcases Nat.lt_or_ge b.max_bounces b.bounces with hlt | hge
      · exact absurd (h.2 hlt) (by simp [ha])
      · exact hge
    unfold Bullet.update
    rw [if_neg (by simp [ha])]
    exact updateBody_inv cosd sind tiles _ hle
  · have ha2 : b.active = false := by simpa using ha
    rw [bullet_update_inactive cosd sind tiles b ha2]
    exact h

theorem iterUpdate_add (cosd sind : ℚ → ℚ) (tiles : List Tile) (m n : ℕ) (b : Bullet) :
    iterUpdate cosd sind tiles (m + n) b
      = iterUpdate cosd sind tiles n (iterUpdate cosd sind tiles m b) := by
  induction m generalizing b with
  | zero =>
    rw [Nat.zero_add]
    rfl
  | succ k ih =>
    rw [Nat.succ_add]
    exact ih (b.update cosd sind tiles)

theorem iterUpdate_mono (cosd sind : ℚ → ℚ) (tiles : List Tile) (n : ℕ) (b : Bullet) :
    b.bounces ≤ (iterUpdate cosd sind tiles n b).bounces := by
  induction n generalizing b with
  | zero => exact le_refl _
  | succ k ih => exact le_trans (bullet_update_mono cosd sind tiles b) (ih _)

theorem iterUpdate_max (cosd sind : ℚ → ℚ) (tiles : List Tile) (n : ℕ) (b : Bullet) :
    (iterUpdate cosd sind tiles n b).max_bounces = b.max_bounces := by
  induction n generalizing b with
  | zero => rfl
  | succ k ih => exact (ih _).trans (bullet_update_max cosd sind tiles b)

theorem iterUpdate_inv (cosd sind : ℚ → ℚ) (tiles : List Tile) (n : ℕ) (b : Bullet)
    (h : BulletInv b) : BulletInv (iterUpdate cosd sind tiles n b) := by
  induction n generalizing b with
  | zero => exact h
  | succ k ih => exact ih _ (bullet_update_inv cosd sind tiles b h)

/-! ## Claim theorems: projectile tick behaviour -/

/-- Claim C2 (amended).  Along every tick sequence of a projectile the
bounce count is monotonically non-decreasing and never exceeds
max_bounces + 1 (= 5 as bullets are constructed, since the source
increments the count before testing the limit); once the count exceeds
the configured maximum, the projectile is inactive at every later
tick. -/
theorem bullet_bounce_monotone_bounded (cosd sind : ℚ → ℚ) (tiles : List Tile)
    (b : Bullet) (hinv : BulletInv b) (m n : ℕ) (hmn : m ≤ n) :
    (iterUpdate cosd sind tiles m b).bounces ≤ (iterUpdate cosd sind tiles n b).bounces
  ∧ (iterUpdate cosd sind tiles n b).bounces ≤ b.max_bounces + 1
  ∧ (b.max_bounces < (iterUpdate cosd sind tiles m b).bounces →
      (iterUpdate cosd sind tiles n b).active = false) := by
  obtain ⟨k, rfl⟩ := Nat.le.dest hmn
  have hinvm : BulletInv (iterUpdate cosd sind tiles m b) :=
    iterUpdate_inv cosd sind tiles m b hinv
  have hinvn : BulletInv (iterUpdate cosd sind tiles k (iterUpdate cosd sind tiles m b)) :=
    iterUpdate_inv cosd sind tiles k _ hinvm
  rw [iterUpdate_add cosd sind tiles m k b]
  refine ⟨iterUpdate_mono cosd sind tiles k _, ?_, ?_⟩
  · have h1 := hinvn.1
    rwa [iterUpdate_max, iterUpdate_max] at h1
  · intro hlt
    apply hinvn.2
    rw [iterUpdate_max, iterUpdate_max]
    exact lt_of_lt_of_le hlt (iterUpdate_mono cosd sind tiles k _)

/-- Witness for bullet_bounce_monotone_bounded at a concrete projectile
and tick pair. -/
theorem bullet_bounce_monotone_bounded_witness :
    bullet_c2.bounces ≤ (iterUpdate cos_deg_sample sin_deg_sample [tile_c2] 1 bullet_c2).bounces
  ∧ (iterUpdate cos_deg_sample sin_deg_sample [tile_c2] 1 bullet_c2).bounces ≤ bullet_c2.max_bounces + 1
  ∧ (bullet_c2.max_bounces < bullet_c2.bounces →
      (iterUpdate cos_deg_sample sin_deg_sample [tile_c2] 1 bullet_c2).active = false) := by
  have h := bullet_bounce_monotone_bounded cos_deg_sample sin_deg_sample [tile_c2]
    bullet_c2 ⟨by decide, by decide⟩ 0 1 (by decide)
  simpa using h

set_option maxRecDepth 8000 in
/-- Counterexample to claim C2 as frozen: a freshly fired projectile
(bounce count 0, max 4) whose bounce count reaches 5 after 34 ticks,
exceeding the configured maximum of 4.  It shuttles between the left
world border and the collidable tile in cell (1,5). -/
theorem bullet_bounces_exceed_max :
    bullet_c2.bounces = 0 ∧ bullet_c2.max_bounces = 4 ∧ bullet_c2.active = true
  ∧ (iterUpdate cos_deg_sample sin_deg_sample [tile_c2] 34 bullet_c2).bounces = 5 := by
  refine ⟨rfl, rfl, rfl, ?_⟩
  decide

/-- Claim C7: when the moved bullet box crosses a world edge and the
bounce budget is not exhausted, the heading reflects.  A crossing of the
left/right edge (the x-axis test, src/main.py line 211) gives
angle := 180 - angle, and because the x test is made first this rule is
the one applied when both axes are breached; a crossing of only the
top/bottom edge gives angle := -angle. -/
theorem bullet_border_reflection (cosd sind : ℚ → ℚ) (tiles : List Tile) (b : Bullet)
    (hact : b.active = true)
    (hmax : b.bounces + 1 ≤ b.max_bounces)
    (hbr : (borderBreachX (b.moved cosd sind) || borderBreachY (b.moved cosd sind)) = true) :
    (borderBreachX (b.moved cosd sind) = true →
       (b.update cosd sind tiles).angle = 180 - b.angle)
  ∧ (borderBreachX (b.moved cosd sind) = false →
       (b.update cosd sind tiles).angle = -b.angle) := by
  unfold Bullet.update
  rw [if_neg (by simp [hact])]
  unfold Bullet.updateBody
  dsimp only
  rw [if_pos hbr]
  have hm : ¬ ((b.moved cosd sind).bounces + 1 > (b.moved cosd sind).max_bounces) := by
    dsimp [Bullet.moved]
    omega
  rw [if_neg hm]
  constructor
  · intro hx
    rw [if_pos hx]
    simp [Bullet.moved]
  · intro hx
    rw [if_neg (by simp [hx])]
    simp [Bullet.moved]

/-- Witness for bullet_border_reflection: a rightward bullet one step
short of the right border. -/
theorem bullet_border_reflection_witness :
    (bullet_c7.update (fun _ => 1) (fun _ => 0) []).angle = 180 - bullet_c7.angle := by
  have h := bullet_border_reflection (fun _ => 1) (fun _ => 0) [] bullet_c7
    rfl (by decide) (by decide)
  exact h.1 (by decide)

/-- Claim C10: calling the per-tick update on an inactive projectile is a
complete no-op — the whole record, hence every field (position, angle,
bounce count, active flag), is unchanged. -/
theorem bullet_update_inactive_noop (cosd sind : ℚ → ℚ) (tiles : List Tile) (b : Bullet)
    (h : b.active = false) : b.update cosd sind tiles = b := by
  simp [Bullet.update, h]

/-- Witness for bullet_update_inactive_noop at a concrete inactive
bullet. -/
theorem bullet_update_inactive_noop_witness :
    bullet_c10.active = false
  ∧ bullet_c10.update cos_deg_sample sin_deg_sample [tile_c2] = bullet_c10 :=
  ⟨rfl, bullet_update_inactive_noop cos_deg_sample sin_deg_sample [tile_c2] bullet_c10 rfl⟩

/-! ## Claim theorems: tank movement and AI state selection -/

/-- Claim C5: a tank move request is atomic — either the candidate
position is applied in full or the tank is returned unchanged — and an
applied move leaves the candidate footprint clear of the border margin
(max(BORDER_THICKNESS, max(TILE_WIDTH, TILE_HEIGHT)) = 70) on every edge
and clear of every collidable obstacle rectangle. -/
theorem tank_move_atomic_safe (t : Tank) (dx dy : ℚ) (tiles : List Tile) :
    t.move dx dy tiles = t
  ∨ ( t.move dx dy tiles = { t with x := t.x + dx, y := t.y + dy }
    ∧ ¬ (t.x + dx - t.size / 2 < ((max BORDER_THICKNESS (max TILE_WIDTH TILE_HEIGHT)) : ℚ))
    ∧ ¬ (t.x + dx + t.size / 2 > (SCREEN_WIDTH : ℚ) - ((max BORDER_THICKNESS (max TILE_WIDTH TILE_HEIGHT)) : ℚ))
    ∧ ¬ (t.y + dy - t.size / 2 < ((max BORDER_THICKNESS (max TILE_WIDTH TILE_HEIGHT)) : ℚ))
    ∧ ¬ (t.y + dy + t.size / 2 > (SCREEN_HEIGHT : ℚ) - ((max BORDER_THICKNESS (max TILE_WIDTH TILE_HEIGHT)) : ℚ))
    ∧ ∀ tile ∈ tiles, tile.collides = true →
        colliderect (mkRectQ (t.x + dx - t.size / 2) (t.y + dy - t.size / 2) t.size t.size) tile.rect = false) := by
  unfold Tank.move
  dsimp only
  split_ifs with h1 h2
  · exact Or.inl rfl
  · exact Or.inl rfl
  · right
    rw [not_or, not_or, not_or] at h1
    refine ⟨rfl, h1.1, h1.2.1, h1.2.2.1, h1.2.2.2, ?_⟩
    intro tile hmem hc
    simp only [List.any_eq_true, Bool.and_eq_true, not_exists, not_and] at h2
    cases hcr : colliderect (mkRectQ (t.x + dx - t.size / 2) (t.y + dy - t.size / 2) t.size t.size) tile.rect
    · rfl
    · exact absurd hcr (h2 tile hmem hc)

/-- Claim C1 (divergence): Tank.update_ai run against a dead opponent at
distance 150 with clear line of sight selects attack, not patrol — the
forced patrol assignment at src/main.py line 372 is dead because lines
377-382 reassign the state unconditionally (and a missing opponent would
raise at line 375). -/
theorem update_ai_dead_opponent_attacks :
    tank_dead.alive = false
  ∧ tank_ai.update_ai_state tank_dead [] = AIState.attack
  ∧ AIState.attack ≠ AIState.patrol :=
  ⟨rfl, by decide, by decide⟩

/-! ## Claim theorems: the occupancy grid -/

theorem mem_if_singleton {c : Prop} [Decidable c] {α : Type} (p q : α) :
    (p ∈ (if c then [q] else ([] : List α))) ↔ (c ∧ p = q) := by
  split <;> simp_all

theorem set2_eq_true (g : ℕ → ℕ → Bool) (a b x y : ℕ) :
    (set2 g a b x y = true) ↔ ((x = a ∧ y = b) ∨ g x y = true) := by
  unfold set2
  split <;> simp_all

theorem setCells_eq_true (ps : List (ℕ × ℕ)) :
    ∀ (g : ℕ → ℕ → Bool) (x y : ℕ),
      (setCells g ps x y = true) ↔ (g x y = true ∨ (x, y) ∈ ps) := by
  induction ps with
  | nil => intro g x y; simp [setCells]
  | cons p rest ih =>
    intro g x y
    have h1 : setCells g (p :: rest) = setCells (set2 g p.1 p.2) rest := rfl
    rw [h1, ih, set2_eq_true]
    constructor
    · rintro ((⟨hx, hy⟩ | hg) | hr)
      · refine Or.inr ?_
        rw [show (x, y) = p from Prod.ext hx hy]
        exact List.mem_cons_self p rest
      · exact Or.inl hg
      · exact Or.inr (List.mem_cons_of_mem _ hr)
    · rintro (hg | hm)
      · exact Or.inl (Or.inr hg)
      · rcases List.mem_cons.mp hm with heq | hr
        · subst heq
          exact Or.inl (Or.inl ⟨rfl, rfl⟩)
        · exact Or.inr hr

theorem borderCells_eq :
    borderCells = (List.range 27).flatMap (fun a => [(a, 0), (a, 21)])
      ++ (List.range 22).flatMap (fun b => [(0, b), (26, b)]) := by
  rfl

theorem mem_borderCells (x y : ℕ) :
    ((x, y) ∈ borderCells) ↔ ((x < 27 ∧ (y = 0 ∨ y = 21)) ∨ (y < 22 ∧ (x = 0 ∨ x = 26))) := by
  rw [borderCells_eq]
  simp only [List.mem_append, List.mem_flatMap, List.mem_range, List.mem_cons,
    List.not_mem_nil, or_false, Prod.mk.injEq]
  constructor
  · rintro (⟨a, ha, (⟨rfl, rfl⟩ | ⟨rfl, rfl⟩)⟩ | ⟨b, hb, (⟨rfl, rfl⟩ | ⟨rfl, rfl⟩)⟩)
    · exact Or.inl ⟨ha, Or.inl rfl⟩
    · exact Or.inl ⟨ha, Or.inr rfl⟩
    · exact Or.inr ⟨hb, Or.inl rfl⟩
    · exact Or.inr ⟨hb, Or.inr rfl⟩
  · rintro (⟨hx, (rfl | rfl)⟩ | ⟨hy, (rfl | rfl)⟩)
    · exact Or.inl ⟨x, hx, Or.inl ⟨rfl, rfl⟩⟩
    · exact Or.inl ⟨x, hx, Or.inr ⟨rfl, rfl⟩⟩
    · exact Or.inr ⟨y, hy, Or.inl ⟨rfl, rfl⟩⟩
    · exact Or.inr ⟨y, hy, Or.inr ⟨rfl, rfl⟩⟩

theorem mem_tileCells (tiles : List Tile) (x y : ℕ) :
    ((x, y) ∈ tileCells tiles) ↔
      (∃ t ∈ tiles, (0 ≤ t.grid_x ∧ t.grid_x < grid_w ∧ 0 ≤ t.grid_y ∧ t.grid_y < grid_h ∧ t.collides = true)
        ∧ t.grid_x.toNat = x ∧ t.grid_y.toNat = y) := by
  simp only [tileCells, List.mem_flatMap, mem_if_singleton, Prod.mk.injEq]
  constructor
  · rintro ⟨t, hmem, hc, hx, hy⟩
    exact ⟨t, hmem, hc, hx.symm ▸ rfl, hy.symm ▸ rfl⟩
  · rintro ⟨t, hmem, hc, hx, hy⟩
    exact ⟨t, hmem, hc, hx.symm, hy.symm⟩

/-- Claim C3: after the grid is built, a cell (within the 27 x 22 grid
derived from the fixed 1920 x 1020 world and 70 x 45 tiles) is occupied
iff a collidable obstacle tile sits at that cell or the cell lies in the
border ring (the outermost row/column band of width
max(1, ceil(BORDER_THICKNESS / tile)) = 1 cell on every edge).  The
statement quantifies over every tile list, the empty one included, so
construction is total on zero obstacles. -/
theorem create_grid_map_spec (tiles : List Tile) (x y : ℕ) (hx : x < 27) (hy : y < 22) :
    create_grid_map tiles x y = true ↔
      (x = 0 ∨ x = 26 ∨ y = 0 ∨ y = 21 ∨
        ∃ t ∈ tiles, t.collides = true ∧ t.grid_x = (x : ℤ) ∧ t.grid_y = (y : ℤ)) := by
  have hgw : grid_w = 27 := by decide
  have hgh : grid_h = 22 := by decide
  unfold create_grid_map
  rw [setCells_eq_true, setCells_eq_true, mem_borderCells, mem_tileCells]
  simp only [hgw, hgh, Bool.false_eq_true, false_or]
  constructor
  · rintro ((⟨_, hy0⟩ | ⟨_, hx0⟩) | ⟨t, hmem, hb, hxx, hyy⟩)
    · omega
    · omega
    · refine Or.inr (Or.inr (Or.inr (Or.inr ⟨t, hmem, hb.2.2.2.2, ?_, ?_⟩))) <;> omega
  · rintro (h | h | h | h | ⟨t, hmem, hc, hxx, hyy⟩)
    · exact Or.inl (Or.inr ⟨hy, Or.inl h⟩)
    · exact Or.inl (Or.inr ⟨hy, Or.inr h⟩)
    · exact Or.inl (Or.inl ⟨hx, Or.inl h⟩)
    · exact Or.inl (Or.inl ⟨hx, Or.inr h⟩)
    · exact Or.inr ⟨t, hmem, ⟨by omega, by omega, by omega, by omega, hc⟩, by omega, by omega⟩

/-- Witness for create_grid_map_spec: a collidable tile at (5, 5) marks
exactly that interior cell. -/
theorem create_grid_map_spec_witness :
    create_grid_map [tile_c2, { grid_x := 5, grid_y := 5 }] 5 5 = true ↔
      ((5 : ℕ) = 0 ∨ (5 : ℕ) = 26 ∨ (5 : ℕ) = 0 ∨ (5 : ℕ) = 21 ∨
        ∃ t ∈ [tile_c2, ({ grid_x := 5, grid_y := 5 } : Tile)],
          t.collides = true ∧ t.grid_x = ((5 : ℕ) : ℤ) ∧ t.grid_y = ((5 : ℕ) : ℤ)) :=
  create_grid_map_spec [tile_c2, { grid_x := 5, grid_y := 5 }] 5 5 (by decide) (by decide)

/-! ## Claim theorems: hit resolution -/

/-- Claim C4: for a hit — an active bullet whose box intersects the
victim rect — handle_bullet deactivates every list entry holding that
bullet (object identity = id), increments the victim death counter by
one, increments the owner kill counter when owner and victim differ and
otherwise the victim suicide counter (kills unchanged), and relocates
the victim exactly to its spawn point with its bullet list emptied, all
in one synchronous step. -/
theorem hit_resolution (s : GState) (victim : Fin 2) (b : Bullet)
    (hact : b.active = true)
    (hcol : colliderect (Tank.get_rect (getTank s victim)) (bulletRectQ b) = true) :
    (getTank (Game.handle_bullet s victim b) victim).deaths = (getTank s victim).deaths + 1
  ∧ (getTank (Game.handle_bullet s victim b) victim).x = (getTank s victim).spawn_point.1
  ∧ (getTank (Game.handle_bullet s victim b) victim).y = (getTank s victim).spawn_point.2
  ∧ (getTank (Game.handle_bullet s victim b) victim).bullets = []
  ∧ (b.owner = victim →
       (getTank (Game.handle_bullet s victim b) victim).suicides = (getTank s victim).suicides + 1
     ∧ ∀ i, (getTank (Game.handle_bullet s victim b) i).kills = (getTank s i).kills)
  ∧ (b.owner ≠ victim →
       (getTank (Game.handle_bullet s victim b) b.owner).kills = (getTank s b.owner).kills + 1
     ∧ (getTank (Game.handle_bullet s victim b) victim).suicides = (getTank s victim).suicides)
  ∧ (∀ i, ∀ bb ∈ (getTank (Game.handle_bullet s victim b) i).bullets,
       bb.id = b.id → bb.active = false) := by
  have fin2 : ∀ i : Fin 2, i = 0 ∨ i = 1 := by decide
  unfold Game.handle_bullet
  rw [if_pos ⟨hact, hcol⟩]
  dsimp only
  by_cases how : b.owner = victim
  · rw [if_pos how]
    rcases fin2 victim with rfl | rfl <;>
      refine ⟨?_, ?_, ?_, ?_, fun _ => ⟨?_, ?_⟩, fun hno => absurd how hno, ?_⟩ <;>
      simp [getTank, updateTank, deactivate_bullet, Tank.respawn] <;>
      first
        | (intro i; rcases fin2 i with rfl | rfl <;>
            simp [getTank, updateTank, deactivate_bullet, Tank.respawn] <;>
            try (intro a ha; split <;> intro hid <;> simp_all))
        | (intro a ha; split <;> intro hid <;> simp_all)
        | skip
  · rw [if_neg how]
    rcases fin2 victim with rfl | rfl <;>
      rcases fin2 b.owner with ho | ho <;>
      first
        | exact absurd ho how
        | (refine ⟨?_, ?_, ?_, ?_, fun heq => absurd heq how, fun _ => ⟨?_, ?_⟩, ?_⟩ <;>
            rw [ho] <;>
            simp [getTank, updateTank, deactivate_bullet, Tank.respawn, ho] <;>
            first
              | (intro i; rcases fin2 i with rfl | rfl <;>
                  simp [getTank, updateTank, deactivate_bullet, Tank.respawn] <;>
                  try (intro a ha; split <;> intro hid <;> simp_all))
              | (intro a ha; split <;> intro hid <;> simp_all)
              | skip)

/-- Witness for hit_resolution: tank1 bullet overlapping tank0. -/
theorem hit_resolution_witness :
    (getTank (Game.handle_bullet gstate_c4 0 bullet_c4) 0).deaths
      = (getTank gstate_c4 0).deaths + 1
  ∧ (getTank (Game.handle_bullet gstate_c4 0 bullet_c4) 0).x
      = (getTank gstate_c4 0).spawn_point.1 := by
  have h := hit_resolution gstate_c4 0 bullet_c4 rfl (by decide)
  exact ⟨h.1, h.2.1⟩

/-! ## Claim theorems: winner determination and the session clock -/

/-- Claim C6, for the two-tank session: the winner is the tank with the
strictly highest kill count — which then is automatically positive — and
there is no winner exactly when the two counts are equal (covering both
a tie at the maximum and the all-zero case, e.g. kill counts (3,3) and
(0,0) give no winner while (3,1) gives the first tank). -/
theorem winner_two_tanks (k1 k2 : ℕ) :
    (draw_game_over_winner [k1, k2] = some 0 ↔ k2 < k1)
  ∧ (draw_game_over_winner [k1, k2] = some 1 ↔ k1 < k2)
  ∧ (draw_game_over_winner [k1, k2] = none ↔ k1 = k2) := by
  have henum : ([k1, k2].enum) = [(0, k1), (1, k2)] := rfl
  unfold draw_game_over_winner select_top
  rw [henum]
  simp only [List.foldl_cons, List.foldl_nil]
  dsimp only
  split_ifs <;> simp_all <;> omega

/-- Claim C9: with match_end = match_start + 90 s, a playing session
ends in exactly the first loop iteration whose clock reading gives
elapsed ≥ 90000 ms — never earlier — and once game_over is reached an
iteration leaves the whole session, in particular every tank and
projectile position, unchanged, for every entity transformer advance. -/
theorem session_end_exact (advance : GState → GState) (now : ℕ) (s : Session)
    (hclock : s.match_end = s.match_start + MATCH_SECONDS * 1000) :
    (s.state = Phase.playing →
      ((Game.run_iter advance now s).state = Phase.game_over ↔ s.match_start + 90000 ≤ now))
  ∧ (s.state = Phase.game_over → Game.run_iter advance now s = s) := by
  have hnum : s.match_end = s.match_start + 90000 := by
    rw [hclock]
    norm_num [MATCH_SECONDS]
  constructor
  · intro hp
    unfold Game.run_iter
    rw [hp]
    dsimp only
    split_ifs with h
    · exact ⟨fun _ => by rw [hnum] at h; exact h, fun _ => rfl⟩
    · constructor
      · intro hbad
        exact absurd hbad (by simp)
      · intro hge
        exact absurd (hnum ▸ hge) h
  · intro hg
    unfold Game.run_iter
    rw [hg]

/-- Witness for session_end_exact, applying it to a playing session past
its deadline and to an ended session. -/
theorem session_end_exact_witness :
    (Game.run_iter id 95000 session_play).state = Phase.game_over
  ∧ Game.run_iter id 95000 session_over = session_over := by
  constructor
  · exact ((session_end_exact id 95000 session_play rfl).1 rfl).mpr (by decide)
  · exact (session_end_exact id 95000 session_over rfl).2 rfl

/-! ## Claim theorems: the A* pathfinder -/

theorem dictGet_dictSet {β : Type} (d : List (Cell × β)) (k : Cell) (v : β) (k2 : Cell) :
    dictGet (dictSet d k v) k2 = if k = k2 then some v else dictGet d k2 := by
  induction d with
  | nil => simp [dictGet, dictSet]
  | cons e rest ih =>
    obtain ⟨k0, v0⟩ := e
    by_cases h : k0 = k
    · subst h
      by_cases h2 : k0 = k2 <;> simp [dictGet, dictSet, h2]
    · by_cases h2 : k0 = k2
      · subst h2
        have hne : ¬ k = k0 := fun hh => h hh.symm
        simp [dictGet, dictSet, h, hne]
      · simp [dictGet, dictSet, h, h2, ih]

theorem dictGet_mem {β : Type} (d : List (Cell × β)) (k : Cell) (v : β)
    (h : dictGet d k = some v) : (k, v) ∈ d := by
  induction d with
  | nil => simp [dictGet] at h
  | cons e rest ih =>
    obtain ⟨k0, v0⟩ := e
    by_cases h0 : k0 = k
    · subst h0
      simp [dictGet] at h
      simp [h]
    · simp [dictGet, h0] at h
      exact List.mem_cons_of_mem _ (ih h)

theorem dictSet_length {β : Type} (d : List (Cell × β)) (k : Cell) (v : β) :
    (dictSet d k v).length
      = if (dictGet d k).isSome = true then d.length else d.length + 1 := by
  induction d with
  | nil => simp [dictGet, dictSet]
  | cons e rest ih =>
    obtain ⟨k0, v0⟩ := e
    by_cases h : k0 = k <;> simp [dictGet, dictSet, h, ih] <;> split <;> simp

theorem popMin_isSome (l : List Entry) (h : l ≠ []) : (popMin l).isSome = true := by
  cases l with
  | nil => exact absurd rfl h
  | cons e rest =>
    unfold popMin
    rcases hp : popMin rest with _ | ⟨m, r⟩
    · rfl
    · dsimp only
      split <;> rfl

theorem popMin_mem (l : List Entry) (m : Entry) (r : List Entry)
    (h : popMin l = some (m, r)) : m ∈ l ∧ ∀ x ∈ r, x ∈ l := by
  induction l generalizing m r with
  | nil => simp [popMin] at h
  | cons e rest ih =>
    unfold popMin at h
    rcases hp : popMin rest with _ | ⟨m0, r0⟩ <;> rw [hp] at h
    · dsimp only at h
      obtain ⟨rfl, rfl⟩ : m = e ∧ r = rest := by
        constructor <;> cases h <;> rfl
      exact ⟨List.mem_cons_self _ _, fun x hx => List.mem_cons_of_mem _ hx⟩
    · dsimp only at h
      obtain ⟨hm0, hr0⟩ := ih m0 r0 hp
      split at h
      · obtain ⟨rfl, rfl⟩ : m = e ∧ r = rest := by
          constructor <;> cases h <;> rfl
        exact ⟨List.mem_cons_self _ _, fun x hx => List.mem_cons_of_mem _ hx⟩
      · obtain ⟨rfl, rfl⟩ : m = m0 ∧ r = e :: r0 := by
          constructor <;> cases h <;> rfl
        refine ⟨List.mem_cons_of_mem _ hm0, fun x hx => ?_⟩
        rcases List.mem_cons.mp hx with rfl | hx0
        · exact List.mem_cons_self _ _
        · exact List.mem_cons_of_mem _ (hr0 x hx0)

theorem countP_lt_of_mem {α : Type} (l : List α) (p q : α → Bool)
    (hmono : ∀ x, p x = true → q x = true) :
    ∀ x : α, x ∈ l → q x = true → p x = false → l.countP p < l.countP q := by
  induction l with
  | nil => intro x hx; exact absurd hx (List.not_mem_nil x)
  | cons a t ih =>
    intro x hx hq hp
    rcases List.mem_cons.mp hx with rfl | hxt
    · rw [List.countP_cons_of_neg _ _ (by simp [hp]), List.countP_cons_of_pos _ _ hq]
      exact Nat.lt_succ_of_le (List.countP_mono_left fun y _ hy => hmono y hy)
    · by_cases hpa : p a = true
      · rw [List.countP_cons_of_pos _ _ hpa, List.countP_cons_of_pos _ _ (hmono a hpa)]
        exact Nat.succ_lt_succ (ih x hxt hq hp)
      · rw [List.countP_cons_of_neg _ _ (by simpa using hpa)]
        calc t.countP p < t.countP q := ih x hxt hq hp
          _ ≤ (a :: t).countP q := by rw [List.countP_cons]; omega

theorem AInv_frontier_subset (grid : ℕ → ℕ → Bool) (start : Cell) (st : AState)
    (rest : List Entry) (hsub : ∀ x ∈ rest, x ∈ st.frontier)
    (hInv : AInv grid start st) : AInv grid start { st with frontier := rest } := by
  obtain ⟨hF, hKeys, hLen, hNone, hPar, hOcc⟩ := hInv
  exact ⟨fun e he => hF e (hsub e he), hKeys, hLen, hNone, hPar, hOcc⟩

theorem astar_init_inv (grid : ℕ → ℕ → Bool) (start : Cell) :
    AInv grid start (astar_init start) := by
  unfold AInv astar_init
  refine ⟨?_, ?_, rfl, ?_, ?_, ?_⟩
  · intro e he
    simp only [List.mem_singleton] at he
    subst he
    simp [dictGet]
  · intro k
    by_cases h : start = k <;> simp [dictGet, h]
  · intro k o hk ho
    by_cases h : start = k
    · exact h.symm
    · simp [dictGet, h] at hk
  · intro k p hk
    by_cases h : start = k <;> simp [dictGet, h] at hk
  · intro k hk
    by_cases h : start = k
    · exact Or.inl h.symm
    · simp [dictGet, h] at hk

theorem astarWrite_inv (grid : ℕ → ℕ → Bool) (start current next : Cell)
    (ccost stp pri : ℚ) (st : AState)
    (hInv : AInv grid start st)
    (hc : dictGet st.cost_so_far current = some ccost)
    (hne : next ≠ current)
    (hoccF : gridAt grid next = false)
    (hstp : 1 ≤ stp)
    (himp : ∀ c, dictGet st.cost_so_far next = some c → ccost + stp < c) :
    AInv grid start
      { frontier := st.frontier ++ [(pri, next)],
        came_from := dictSet st.came_from next (some current),
        cost_so_far := dictSet st.cost_so_far next (ccost + stp) }
  ∧ dictGet (dictSet st.cost_so_far next (ccost + stp)) current = some ccost := by
  obtain ⟨hF, hKeys, hLen, hNone, hPar, hOcc⟩ := hInv
  constructor
  · refine ⟨?_, ?_, ?_, ?_, ?_, ?_⟩
    · intro e he
      rcases List.mem_append.mp he with he | he
      · rw [dictGet_dictSet]
        split
        · rfl
        · exact hF e he
      · simp only [List.mem_singleton] at he
        subst he
        rw [dictGet_dictSet, if_pos rfl]
        rfl
    · intro k
      rw [dictGet_dictSet, dictGet_dictSet]
      split
      · simp
      · exact hKeys k
    · rw [dictSet_length, dictSet_length]
      by_cases hk : (dictGet st.came_from next).isSome = true
      · rw [if_pos hk, if_pos ((hKeys _).mp hk)]
        exact hLen
      · rw [if_neg hk, if_neg (fun hcc => hk ((hKeys _).mpr hcc))]
        omega
    · intro k o hk ho
      rw [dictGet_dictSet] at hk
      split at hk
      · subst ho
        cases hk
      · exact hNone k o hk ho
    · intro k p hk
      rw [dictGet_dictSet] at hk
      split at hk
      · rename_i hkeq
        have hp : p = current := by cases hk; rfl
        subst hp
        refine ⟨ccost + stp, ccost, ?_, ?_, ?_⟩
        · rw [dictGet_dictSet, if_pos hkeq]
        · rw [dictGet_dictSet, if_neg hne]
          exact hc
        · linarith
      · rename_i hkne
        obtain ⟨ck, cp, hck, hcp, hle⟩ := hPar k p hk
        by_cases hpn : next = p
        · have himp2 : ccost + stp < cp := himp cp (hpn ▸ hcp)
          refine ⟨ck, ccost + stp, ?_, ?_, ?_⟩
          · rw [dictGet_dictSet, if_neg hkne]
            exact hck
          · rw [dictGet_dictSet, if_pos hpn]
          · linarith
        · refine ⟨ck, cp, ?_, ?_, hle⟩
          · rw [dictGet_dictSet, if_neg hkne]
            exact hck
          · rw [dictGet_dictSet, if_neg hpn]
            exact hcp
    · intro k hk
      rw [dictGet_dictSet] at hk
      split at hk
      · rename_i hkeq
        exact Or.inr (hkeq ▸ hoccF)
      · exact hOcc k hk
  · rw [dictGet_dictSet, if_neg fun hh => hne hh]
    exact hc

theorem astarStep_inv (grid : ℕ → ℕ → Bool) (start goal current : Cell) (ccost : ℚ)
    (st : AState) (d : ℤ × ℤ) (hd : d ≠ (0, 0))
    (hInv : AInv grid start st)
    (hc : dictGet st.cost_so_far current = some ccost) :
    AInv grid start (astarStep grid goal current ccost st d)
  ∧ dictGet (astarStep grid goal current ccost st d).cost_so_far current = some ccost := by
  have hne : ((current.1 + d.1, current.2 + d.2) : Cell) ≠ current := by
    intro hh
    rw [Prod.ext_iff] at hh
    apply hd
    rw [Prod.ext_iff]
    constructor
    · have := hh.1
      dsimp only at this ⊢
      omega
    · have := hh.2
      dsimp only at this ⊢
      omega
  unfold astarStep
  dsimp only
  generalize hstpe : (if |d.1| + |d.2| = 2 then (7 : ℚ) / 5 else 1) = stp
  have hstp : (1 : ℚ) ≤ stp := by
    rw [← hstpe]
    split <;> norm_num
  by_cases hin : 0 ≤ current.1 + d.1 ∧ current.1 + d.1 < grid_w ∧
      0 ≤ current.2 + d.2 ∧ current.2 + d.2 < grid_h
  · rw [if_pos hin]
    by_cases hocc : gridAt grid (current.1 + d.1, current.2 + d.2) = true
    · rw [if_pos hocc]
      exact ⟨hInv, hc⟩
    · rw [if_neg hocc]
      have hoccF : gridAt grid (current.1 + d.1, current.2 + d.2) = false := by
        simpa using hocc
      rcases hprev : dictGet st.cost_so_far (current.1 + d.1, current.2 + d.2) with _ | cold
      · split
        · exact astarWrite_inv grid start current (current.1 + d.1, current.2 + d.2)
            ccost _ _ st hInv hc hne hoccF hstp
            (fun c hcc => absurd (hcc.symm.trans hprev) (by simp))
        · rename_i hfalse
          simp at hfalse
      · split
        · rename_i htrue
          have himp : ccost + stp < cold := by
            simpa using htrue
          exact astarWrite_inv grid start current (current.1 + d.1, current.2 + d.2)
            ccost _ _ st hInv hc hne hoccF hstp
            (fun c hcc => by cases hprev.symm.trans hcc; exact himp)
        · exact ⟨hInv, hc⟩
  · rw [if_neg hin]
    exact ⟨hInv, hc⟩

theorem astarExpand_aux (grid : ℕ → ℕ → Bool) (start goal current : Cell) (ccost : ℚ) :
    ∀ (ds : List (ℤ × ℤ)) (st : AState),
      (∀ d ∈ ds, d ≠ ((0 : ℤ), (0 : ℤ))) →
      AInv grid start st →
      dictGet st.cost_so_far current = some ccost →
      AInv grid start (ds.foldl (astarStep grid goal current ccost) st)
    ∧ dictGet (ds.foldl (astarStep grid goal current ccost) st).cost_so_far current
        = some ccost := by
  intro ds
  induction ds with
  | nil => intro st _ h hc; exact ⟨h, hc⟩
  | cons d rest ih =>
    intro st hds h hc
    rw [List.foldl_cons]
    obtain ⟨h1, h2⟩ := astarStep_inv grid start goal current ccost st d
      (hds d (List.mem_cons_self _ _)) h hc
    exact ih _ (fun d2 hd2 => hds d2 (List.mem_cons_of_mem _ hd2)) h1 h2

theorem astarExpand_inv (grid : ℕ → ℕ → Bool) (start goal current : Cell) (ccost : ℚ)
    (st : AState) (hInv : AInv grid start st)
    (hc : dictGet st.cost_so_far current = some ccost) :
    AInv grid start (astarExpand grid goal current ccost st) :=
  (astarExpand_aux grid start goal current ccost astar_dirs st (by decide) hInv hc).1

theorem astarLoop_ok (grid : ℕ → ℕ → Bool) (start goal : Cell) :
    ∀ (fuel : ℕ) (st : AState), AInv grid start st →
      ∃ st2, astarLoop grid goal fuel st = Except.ok st2 ∧ AInv grid start st2 := by
  intro fuel
  induction fuel with
  | zero => intro st h; exact ⟨st, rfl, h⟩
  | succ f ih =>
    intro st h
    unfold astarLoop
    by_cases hcond : st.frontier ≠ [] ∧ st.came_from.length < 200
    · rw [if_pos hcond]
      rcases hp : popMin st.frontier with _ | ⟨m, rest⟩
      · exact absurd (popMin_isSome st.frontier hcond.1) (by rw [hp]; simp)
      · dsimp only
        obtain ⟨hmem, hsub⟩ := popMin_mem st.frontier m rest hp
        by_cases hg : m.2 = goal
        · rw [if_pos hg]
          exact ⟨_, rfl, AInv_frontier_subset grid start st rest hsub h⟩
        · rw [if_neg hg]
          have hsome := h.1 m hmem
          rcases hcost : dictGet st.cost_so_far m.2 with _ | ccost
          · rw [hcost] at hsome
            simp at hsome
          · have hrest : AInv grid start { st with frontier := rest } :=
              AInv_frontier_subset grid start st rest hsub h
            have hnext := astarExpand_inv grid start goal m.2 ccost
              { st with frontier := rest } hrest hcost
            exact ih _ hnext
    · rw [if_neg hcond]
      exact ⟨st, rfl, h⟩

theorem reconstructPath_ok (grid : ℕ → ℕ → Bool) (start : Cell) (st : AState)
    (hInv : AInv grid start st) :
    ∀ (fuel : ℕ) (current : Cell) (acc : List (ℤ × ℤ)),
      (dictGet st.came_from current).isSome = true →
      (∀ ck, dictGet st.cost_so_far current = some ck → countBelow st.cost_so_far ck < fuel) →
      ∃ p, reconstructPath st.came_from start fuel current acc = Except.ok p := by
  obtain ⟨hF, hKeys, hLen, hNone, hPar, hOcc⟩ := hInv
  intro fuel
  induction fuel with
  | zero =>
    intro current acc hsome hcount
    obtain ⟨ck, hck⟩ := Option.isSome_iff_exists.mp ((hKeys current).mp hsome)
    exact absurd (hcount ck hck) (by omega)
  | succ f ih =>
    intro current acc hsome hcount
    unfold reconstructPath
    by_cases hcs : current = start
    · rw [if_pos hcs]
      exact ⟨_, rfl⟩
    · rw [if_neg hcs]
      rcases hcf : dictGet st.came_from current with _ | o
      · rw [hcf] at hsome
        simp at hsome
      · rcases o with _ | p
        · exact absurd (hNone current none hcf rfl) hcs
        · obtain ⟨ck, cp, hck, hcp, hle⟩ := hPar current p hcf
          dsimp only
          apply ih p
          · exact (hKeys p).mpr (by rw [hcp]; rfl)
          · intro ck2 hck2
            have hcpeq : ck2 = cp := by
              rw [hcp] at hck2
              cases hck2
              rfl
            subst hcpeq
            have hstrict : countBelow st.cost_so_far ck2 < countBelow st.cost_so_far ck := by
              apply countP_lt_of_mem st.cost_so_far _ _
                (fun x hx => by
                  simp only [decide_eq_true_eq] at hx ⊢
                  linarith)
                (p, ck2) (dictGet_mem st.cost_so_far p ck2 hcp)
              · simp only [decide_eq_true_eq]
                linarith
              · simp only [decide_eq_false_iff_not]
                exact lt_irrefl ck2
            have := hcount ck hck
            omega

theorem astar_run_ok (grid : ℕ → ℕ → Bool) (start goal : Cell) :
    ∃ st2, astar_run grid start goal = Except.ok st2 ∧ AInv grid start st2 :=
  astarLoop_ok grid start goal ASTAR_FUEL (astar_init start) (astar_init_inv grid start)

/-- Claim C8: the pathfinder is total — it always returns a value, never
an error — it returns an empty path immediately when the start cell
equals the goal cell, it returns an empty path when the goal cell is
occupied, and whenever the bounded search (the loop capped at 200
recorded cells) finishes without having recorded the goal cell, the
result is the empty path. -/
theorem astar_pathfind_spec (grid : ℕ → ℕ → Bool) (sx sy tx ty : ℚ) :
    (∃ p, astar_pathfind grid sx sy tx ty = Except.ok p)
  ∧ (world_to_cell sx sy = world_to_cell tx ty →
      astar_pathfind grid sx sy tx ty = Except.ok [])
  ∧ (gridAt grid (world_to_cell tx ty) = true →
      astar_pathfind grid sx sy tx ty = Except.ok [])
  ∧ (∀ st, astar_run grid (world_to_cell sx sy) (world_to_cell tx ty) = Except.ok st →
      dictGet st.came_from (world_to_cell tx ty) = none →
      astar_pathfind grid sx sy tx ty = Except.ok []) := by
  obtain ⟨st2, hrun, hinv⟩ := astar_run_ok grid (world_to_cell sx sy) (world_to_cell tx ty)
  unfold astar_pathfind
  dsimp only
  by_cases heq : world_to_cell sx sy = world_to_cell tx ty
  · rw [if_pos heq]
    exact ⟨⟨[], rfl⟩, fun _ => rfl, fun _ => rfl, fun _ _ _ => rfl⟩
  · rw [if_neg heq, hrun]
    dsimp only
    rcases hg : dictGet st2.came_from (world_to_cell tx ty) with _ | o
    · exact ⟨⟨[], rfl⟩, fun h => absurd h heq, fun _ => rfl, fun st hst hnone => rfl⟩
    · have hsome : (dictGet st2.came_from (world_to_cell tx ty)).isSome = true := by
        rw [hg]
        rfl
      have hcount : ∀ ck, dictGet st2.cost_so_far (world_to_cell tx ty) = some ck →
          countBelow st2.cost_so_far ck < st2.came_from.length + 1 := by
        intro ck _
        have h1 : countBelow st2.cost_so_far ck ≤ st2.cost_so_far.length :=
          List.countP_le_length _
        have h2 : st2.came_from.length = st2.cost_so_far.length := hinv.2.2.1
        omega
      obtain ⟨pp, hpp⟩ := reconstructPath_ok grid (world_to_cell sx sy) st2 hinv
        (st2.came_from.length + 1) (world_to_cell tx ty) [] hsome hcount
      refine ⟨⟨pp, hpp⟩, fun h => absurd h heq, fun hocc => ?_, fun st hst hnone => ?_⟩
      · rcases hinv.2.2.2.2.2 (world_to_cell tx ty) hsome with hstart | hfree
        · exact absurd hstart.symm heq
        · rw [hfree] at hocc
          cases hocc
      · cases hst
        rw [hg] at hnone
        cases hnone

/-- Witness for astar_pathfind_spec: a start/goal in the same cell, an
occupied goal one cell to the right, and the recorded final search state
of that failed search. -/
theorem astar_pathfind_spec_witness :
    astar_pathfind (fun _ _ => true) 35 22 35 22 = Except.ok []
  ∧ astar_pathfind (fun _ _ => true) 35 22 105 22 = Except.ok []
  ∧ astar_pathfind (fun _ _ => true) 35 22 105 22 = Except.ok [] := by
  refine ⟨(astar_pathfind_spec (fun _ _ => true) 35 22 35 22).2.1 rfl,
          (astar_pathfind_spec (fun _ _ => true) 35 22 105 22).2.2.1 rfl,
          (astar_pathfind_spec (fun _ _ => true) 35 22 105 22).2.2.2
            ⟨[], [(((0 : ℤ), (0 : ℤ)), none)], [(((0 : ℤ), (0 : ℤ)), (0 : ℚ))]⟩ ?_ ?_⟩
  · rfl
  · rfl

end BattleTanks
